import Mathlib

/-!
# Verification of the kraken-go-api-client core against its specification

This file gives a shallow embedding, in Lean 4, of the request-signing and
response-decoding core of the `krakenapi` Go package (files `krakenclient.go`,
`privateapi.go`, `publicapi.go`, `krakenapi.go`), and proves the specified
properties of that core.

Modelling conventions:
* Go byte slices are `List Nat`, each element a byte value (`< 256` by
  construction; arithmetic is taken `% 256` / `% 2^32` / `% 2^64` where the
  Go code computes on fixed-width words).
* Go `float64` values that the code parses out of decimal strings are
  modelled as exact rationals (`ℚ`); none of the verified properties
  depends on binary rounding.
* Fallible Go code (type assertions that would panic, error returns) is
  modelled with `Option` / `Except String`.
* Go standard-library primitives called by the code (SHA-256, SHA-512,
  HMAC, base64, URL encoding, media-type parsing, float parsing) are
  implemented here following their documented behaviour on the inputs the
  program feeds them.
-/

namespace KrakenApi

/-! ## Bytes and UTF-8 encoding (Go `[]byte(s)` on a string) -/

/-- 32-bit word truncation. -/
def w32 (n : Nat) : Nat := n % 4294967296

/-- 64-bit word truncation. -/
def w64 (n : Nat) : Nat := n % 18446744073709551616

/-- UTF-8 encoding of a single code point, as Go produces for `[]byte(string)`. -/
def utf8EncodeChar (c : Char) : List Nat :=
  let n := c.toNat
  if n < 128 then [n]
  else if n < 2048 then [192 ||| (n >>> 6), 128 ||| (n &&& 63)]
  else if n < 65536 then
    [224 ||| (n >>> 12), 128 ||| ((n >>> 6) &&& 63), 128 ||| (n &&& 63)]
  else
    [240 ||| (n >>> 18), 128 ||| ((n >>> 12) &&& 63),
     128 ||| ((n >>> 6) &&& 63), 128 ||| (n &&& 63)]

/-- The bytes of a string, `[]byte(s)` in Go. -/
def strBytes (s : String) : List Nat :=
  s.toList.foldr (fun c acc => utf8EncodeChar c ++ acc) []

/-- Big-endian bytes of a number, width `k` bytes. -/
def natToBytesBE (k n : Nat) : List Nat :=
  (List.range k).map (fun i => (n >>> (8 * (k - 1 - i))) % 256)

/-- Big-endian word from a list of bytes. -/
def bytesToNatBE (bs : List Nat) : Nat :=
  bs.foldl (fun acc b => acc * 256 + b) 0

/-- Split a list into chunks of size `sz` (with `fuel` bounding recursion). -/
def chunksAux (sz : Nat) : Nat → List Nat → List (List Nat)
  | 0, _ => []
  | _ + 1, [] => []
  | fuel + 1, l => l.take sz :: chunksAux sz fuel (l.drop sz)

def chunks (sz : Nat) (l : List Nat) : List (List Nat) :=
  chunksAux sz l.length l

/-! ## SHA-256 (Go `crypto/sha256`, called by `getSha256` in privateapi.go) -/

def rotr32 (x n : Nat) : Nat := w32 ((x >>> n) ||| (x <<< (32 - n)))

/-- The 64 SHA-256 round constants. -/
def sha256K : List Nat :=
  [1116352408, 1899447441, 3049323471, 3921009573, 961987163, 1508970993,
   2453635748, 2870763221, 3624381080, 310598401, 607225278, 1426881987,
   1925078388, 2162078206, 2614888103, 3248222580, 3835390401, 4022224774,
   264347078, 604807628, 770255983, 1249150122, 1555081692, 1996064986,
   2554220882, 2821834349, 2952996808, 3210313671, 3336571891, 3584528711,
   113926993, 338241895, 666307205, 773529912, 1294757372, 1396182291,
   1695183700, 1986661051, 2177026350, 2456956037, 2730485921, 2820302411,
   3259730800, 3345764771, 3516065817, 3600352804, 4094571909, 275423344,
   430227734, 506948616, 659060556, 883997877, 958139571, 1322822218,
   1537002063, 1747873779, 1955562222, 2024104815, 2227730452, 2361852424,
   2428436474, 2756734187, 3204031479, 3329325298]

def sha256H0 : List Nat :=
  [1779033703, 3144134277, 1013904242, 2773480762,
   1359893119, 2600822924, 528734635, 1541459225]

/-- Extend the 16 block words to the 64-entry message schedule. -/
def sha256Extend (w0 : Array Nat) : Array Nat :=
  (List.range 48).foldl
    (fun w i =>
      let t := i + 16
      let x15 := w.getD (t - 15) 0
      let x2 := w.getD (t - 2) 0
      let s0 := (rotr32 x15 7) ^^^ (rotr32 x15 18) ^^^ (x15 >>> 3)
      let s1 := (rotr32 x2 17) ^^^ (rotr32 x2 19) ^^^ (x2 >>> 10)
      w.push (w32 (w.getD (t - 16) 0 + s0 + w.getD (t - 7) 0 + s1)))
    w0

/-- One SHA-256 round on the 8-word state. -/
def sha256Round (wt kt : Nat) (st : List Nat) : List Nat :=
  match st with
  | [a, b, c, d, e, f, g, h] =>
    let s1 := (rotr32 e 6) ^^^ (rotr32 e 11) ^^^ (rotr32 e 25)
    let ch := (e &&& f) ^^^ ((e ^^^ 4294967295) &&& g)
    let temp1 := w32 (h + s1 + ch + kt + wt)
    let s0 := (rotr32 a 2) ^^^ (rotr32 a 13) ^^^ (rotr32 a 22)
    let maj := (a &&& b) ^^^ (a &&& c) ^^^ (b &&& c)
    let temp2 := w32 (s0 + maj)
    [w32 (temp1 + temp2), a, b, c, w32 (d + temp1), e, f, g]
  | other => other

/-- Compress one 64-byte block into the running hash state. -/
def sha256Compress (h : List Nat) (block : List Nat) : List Nat :=
  let ws := sha256Extend ((chunks 4 block).map bytesToNatBE).toArray
  let st := (List.range 64).foldl
    (fun st t => sha256Round (ws.getD t 0) (sha256K.getD t 0) st) h
  (h.zip st).map (fun p => w32 (p.1 + p.2))

/-- SHA-256 padding: append `0x80`, zeros, and the 64-bit big-endian bit length. -/
def sha256Pad (msg : List Nat) : List Nat :=
  let l := msg.length
  let k := (56 + 64 - ((l + 1) % 64)) % 64
  msg ++ [128] ++ List.replicate k 0 ++ natToBytesBE 8 (8 * l)

/-- Function `getSha256` from privateapi.go: the SHA-256 digest of the input bytes. -/
def getSha256 (input : List Nat) : List Nat :=
  let hs := ((chunks 64 (sha256Pad input)).foldl sha256Compress sha256H0)
  hs.foldr (fun wrd acc => natToBytesBE 4 wrd ++ acc) []

/-! ## SHA-512 and HMAC-SHA-512 (Go `crypto/sha512`, `crypto/hmac`,
called by `getHMacSha512` in privateapi.go) -/

def rotr64 (x n : Nat) : Nat := w64 ((x >>> n) ||| (x <<< (64 - n)))

/-- The 80 SHA-512 round constants. -/
def sha512K : List Nat :=
  [4794697086780616226, 8158064640168781261, 13096744586834688815, 16840607885511220156,
   4131703408338449720, 6480981068601479193, 10538285296894168987, 12329834152419229976,
   15566598209576043074, 1334009975649890238, 2608012711638119052, 6128411473006802146,
   8268148722764581231, 9286055187155687089, 11230858885718282805, 13951009754708518548,
   16472876342353939154, 17275323862435702243, 1135362057144423861, 2597628984639134821,
   3308224258029322869, 5365058923640841347, 6679025012923562964, 8573033837759648693,
   10970295158949994411, 12119686244451234320, 12683024718118986047, 13788192230050041572,
   14330467153632333762, 15395433587784984357, 489312712824947311, 1452737877330783856,
   2861767655752347644, 3322285676063803686, 5560940570517711597, 5996557281743188959,
   7280758554555802590, 8532644243296465576, 9350256976987008742, 10552545826968843579,
   11727347734174303076, 12113106623233404929, 14000437183269869457, 14369950271660146224,
   15101387698204529176, 15463397548674623760, 17586052441742319658, 1182934255886127544,
   1847814050463011016, 2177327727835720531, 2830643537854262169, 3796741975233480872,
   4115178125766777443, 5681478168544905931, 6601373596472566643, 7507060721942968483,
   8399075790359081724, 8693463985226723168, 9568029438360202098, 10144078919501101548,
   10430055236837252648, 11840083180663258601, 13761210420658862357, 14299343276471374635,
   14566680578165727644, 15097957966210449927, 16922976911328602910, 17689382322260857208,
   500013540394364858, 748580250866718886, 1242879168328830382, 1977374033974150939,
   2944078676154940804, 3659926193048069267, 4368137639120453308, 4836135668995329356,
   5532061633213252278, 6448918945643986474, 6902733635092675308, 7801388544844847127]

def sha512H0 : List Nat :=
  [7640891576956012808, 13503953896175478587, 4354685564936845355,
   11912009170470909681, 5840696475078001361, 11170449401992604703,
   2270897969802886507, 6620516959819538809]

/-- Extend the 16 block words to the 80-entry message schedule. -/
def sha512Extend (w0 : Array Nat) : Array Nat :=
  (List.range 64).foldl
    (fun w i =>
      let t := i + 16
      let x15 := w.getD (t - 15) 0
      let x2 := w.getD (t - 2) 0
      let s0 := (rotr64 x15 1) ^^^ (rotr64 x15 8) ^^^ (x15 >>> 7)
      let s1 := (rotr64 x2 19) ^^^ (rotr64 x2 61) ^^^ (x2 >>> 6)
      w.push (w64 (w.getD (t - 16) 0 + s0 + w.getD (t - 7) 0 + s1)))
    w0

/-- One SHA-512 round on the 8-word state. -/
def sha512Round (wt kt : Nat) (st : List Nat) : List Nat :=
  match st with
  | [a, b, c, d, e, f, g, h] =>
    let s1 := (rotr64 e 14) ^^^ (rotr64 e 18) ^^^ (rotr64 e 41)
    let ch := (e &&& f) ^^^ ((e ^^^ 18446744073709551615) &&& g)
    let temp1 := w64 (h + s1 + ch + kt + wt)
    let s0 := (rotr64 a 28) ^^^ (rotr64 a 34) ^^^ (rotr64 a 39)
    let maj := (a &&& b) ^^^ (a &&& c) ^^^ (b &&& c)
    let temp2 := w64 (s0 + maj)
    [w64 (temp1 + temp2), a, b, c, w64 (d + temp1), e, f, g]
  | other => other

/-- Compress one 128-byte block into the running hash state. -/
def sha512Compress (h : List Nat) (block : List Nat) : List Nat :=
  let ws := sha512Extend ((chunks 8 block).map bytesToNatBE).toArray
  let st := (List.range 80).foldl
    (fun st t => sha512Round (ws.getD t 0) (sha512K.getD t 0) st) h
  (h.zip st).map (fun p => w64 (p.1 + p.2))

/-- SHA-512 padding: append `0x80`, zeros, and the 128-bit big-endian bit length. -/
def sha512Pad (msg : List Nat) : List Nat :=
  let l := msg.length
  let k := (112 + 128 - ((l + 1) % 128)) % 128
  msg ++ [128] ++ List.replicate k 0 ++ natToBytesBE 16 (8 * l)

/-- The SHA-512 digest of the input bytes. -/
def sha512 (input : List Nat) : List Nat :=
  let hs := ((chunks 128 (sha512Pad input)).foldl sha512Compress sha512H0)
  hs.foldr (fun wrd acc => natToBytesBE 8 wrd ++ acc) []

/-- Function `getHMacSha512` from privateapi.go: HMAC with SHA-512, Go
`hmac.New(sha512.New, secret)` fed `message`. -/
def getHMacSha512 (message secret : List Nat) : List Nat :=
  let key0 := if secret.length > 128 then sha512 secret else secret
  let key := key0 ++ List.replicate (128 - key0.length) 0
  let ipad := key.map (fun b => b ^^^ 0x36)
  let opad := key.map (fun b => b ^^^ 0x5c)
  sha512 (opad ++ sha512 (ipad ++ message))

/-! ## Base64 (Go `encoding/base64` standard encoding) -/

def b64Char (n : Nat) : Char :=
  if n < 26 then Char.ofNat (65 + n)
  else if n < 52 then Char.ofNat (97 + (n - 26))
  else if n < 62 then Char.ofNat (48 + (n - 52))
  else if n = 62 then '+' else '/'

/-- Go `base64.StdEncoding.EncodeToString`. -/
def base64EncodeGroups : List Nat → List Char
  | a :: b :: c :: rest =>
    b64Char (a >>> 2) :: b64Char (((a &&& 3) <<< 4) ||| (b >>> 4)) ::
    b64Char (((b &&& 15) <<< 2) ||| (c >>> 6)) :: b64Char (c &&& 63) ::
    base64EncodeGroups rest
  | [a, b] =>
    [b64Char (a >>> 2), b64Char (((a &&& 3) <<< 4) ||| (b >>> 4)),
     b64Char ((b &&& 15) <<< 2), '=']
  | [a] =>
    [b64Char (a >>> 2), b64Char ((a &&& 3) <<< 4), '=', '=']
  | [] => []

def base64Encode (bs : List Nat) : String :=
  String.mk (base64EncodeGroups bs)

/-- Index of a character in the standard base64 alphabet. -/
def b64Index (c : Char) : Option Nat :=
  let n := c.toNat
  if 65 ≤ n ∧ n ≤ 90 then some (n - 65)
  else if 97 ≤ n ∧ n ≤ 122 then some (n - 71)
  else if 48 ≤ n ∧ n ≤ 57 then some (n + 4)
  else if c = '+' then some 62
  else if c = '/' then some 63
  else none

/-- Go `base64.StdEncoding.DecodeString` on the newline-stripped input:
decodes 4-character quantums; on corrupt input it returns the bytes decoded
from the preceding complete quantums together with an error (the caller in
privateapi.go discards that error). -/
def base64DecodeQuantums : List Char → List Nat × Option String
  | [] => ([], none)
  | c1 :: c2 :: c3 :: c4 :: rest =>
    (match b64Index c1, b64Index c2 with
     | some i1, some i2 =>
       if c3 = '=' then
         (if c4 = '=' ∧ rest = [] then ([(i1 <<< 2) ||| (i2 >>> 4)], none)
          else ([], some "illegal base64 data"))
       else
         (match b64Index c3 with
          | some i3 =>
            if c4 = '=' then
              (if rest = [] then
                 ([(i1 <<< 2) ||| (i2 >>> 4), ((i2 &&& 15) <<< 4) ||| (i3 >>> 2)], none)
               else ([], some "illegal base64 data"))
            else
              (match b64Index c4 with
               | some i4 =>
                 let out := base64DecodeQuantums rest
                 (((i1 <<< 2) ||| (i2 >>> 4)) :: (((i2 &&& 15) <<< 4) ||| (i3 >>> 2)) ::
                    (((i3 &&& 3) <<< 6) ||| i4) :: out.1, out.2)
               | none => ([], some "illegal base64 data"))
          | none => ([], some "illegal base64 data"))
     | _, _ => ([], some "illegal base64 data"))
  | _ => ([], some "illegal base64 data")

/-- The secret decode step of `queryPrivate`: bytes decoded so far, plus the
(ignored) error. -/
def base64DecodeString (s : String) : List Nat × Option String :=
  base64DecodeQuantums (s.toList.filter (fun c => !(c = '\n' ∨ c = '\r')))

/-! ## `net/url` Values (Go `url.Values`, used for request parameters) -/

/-- Go `url.Values` is a `map[string][]string`; modelled as an association
list from key to the list of values for that key. -/
abbrev Values := List (String × List String)

/-- Go `url.Values.Get`: the first value for the key, `""` when absent. -/
def valuesGet (v : Values) (key : String) : String :=
  match v.find? (fun kv => kv.1 == key) with
  | some (_, x :: _) => x
  | _ => ""

/-- Go `url.Values.Add`: append a value for the key. -/
def valuesAdd (v : Values) (key value : String) : Values :=
  if v.any (fun kv => kv.1 == key) then
    v.map (fun kv => if kv.1 == key then (kv.1, kv.2 ++ [value]) else kv)
  else v ++ [(key, [value])]

/-- Go `url.Values.Set`: replace the values for the key with the one value. -/
def valuesSet (v : Values) (key value : String) : Values :=
  if v.any (fun kv => kv.1 == key) then
    v.map (fun kv => if kv.1 == key then (kv.1, [value]) else kv)
  else v ++ [(key, [value])]

/-- Characters Go `url.QueryEscape` leaves unescaped. -/
def isUnreservedQueryChar (c : Char) : Bool :=
  (('A' ≤ c ∧ c ≤ 'Z') ∨ ('a' ≤ c ∧ c ≤ 'z') ∨ ('0' ≤ c ∧ c ≤ '9')) ∨
    c = '-' ∨ c = '_' ∨ c = '.' ∨ c = '~'

def hexDigitUpper (n : Nat) : Char :=
  if n < 10 then Char.ofNat (48 + n) else Char.ofNat (55 + n)

/-- Go `url.QueryEscape`: unreserved characters kept, space becomes `+`,
anything else percent-encoded byte-wise in uppercase hex. -/
def queryEscape (s : String) : String :=
  String.mk (s.toList.foldr
    (fun c acc =>
      if isUnreservedQueryChar c then c :: acc
      else if c = ' ' then '+' :: acc
      else (utf8EncodeChar c).foldr
        (fun b acc2 => '%' :: hexDigitUpper (b >>> 4) :: hexDigitUpper (b % 16) :: acc2)
        acc)
    [])

/-- Insertion into a key-sorted association list (Go `Encode` sorts keys). -/
def valuesInsertSorted (kv : String × List String) : Values → Values
  | [] => [kv]
  | x :: xs => if kv.1 < x.1 then kv :: x :: xs else x :: valuesInsertSorted kv xs

def valuesSortByKey (v : Values) : Values :=
  v.foldr valuesInsertSorted []

/-- Go `url.Values.Encode`: keys sorted, each key=value pair query-escaped
and joined with `&`. -/
def valuesEncode (v : Values) : String :=
  String.intercalate "&"
    ((valuesSortByKey v).foldr
      (fun kv acc => kv.2.map (fun x => queryEscape kv.1 ++ "=" ++ queryEscape x) ++ acc)
      [])

/-! ## The Signer (`createSignature` in privateapi.go) -/

/-- Function `createSignature` from privateapi.go:
`getSha256([]byte(values.Get("nonce") + values.Encode()))`, then
`getHMacSha512(append([]byte(urlPath), shaSum...), secret)`, base64-encoded. -/
def createSignature (urlPath : String) (values : Values) (secret : List Nat) : String :=
  let shaSum := getSha256 (strBytes (valuesGet values "nonce" ++ valuesEncode values))
  let macSum := getHMacSha512 (strBytes urlPath ++ shaSum) secret
  base64Encode macSum

/-! ## Go JSON values and `strconv.ParseFloat` -/

/-- A decoded Go `interface{}` JSON value, as the code's type assertions see
it. Go `float64` JSON numbers are modelled as exact rationals. -/
inductive GoVal where
  | str : String → GoVal
  | num : ℚ → GoVal
  | arr : List GoVal → GoVal
  | nullv : GoVal

/-- Truncation of a Go `float64` to `int64` (`int64(x)` rounds toward zero). -/
def float64ToInt64 (q : ℚ) : Int := q.num.tdiv (q.den : Int)

def digitsToNat (ds : List Char) : Nat :=
  ds.foldl (fun acc c => 10 * acc + (c.toNat - 48)) 0

/-- Go `strconv.ParseFloat` on the plain decimal forms the exchange sends:
optional sign, digits with an optional fractional part (at least one digit
overall), and an optional decimal exponent; anything else fails. The
special forms (infinities, NaN, hex mantissas, digit separators) that
ParseFloat also accepts never carry a finite exchange amount and are outside
this model. The parsed value is kept exact (`ℚ`). -/
def parseFloat (s : String) : Option ℚ :=
  let cs := s.toList
  let signAndRest : Bool × List Char :=
    match cs with
    | '+' :: r => (false, r)
    | '-' :: r => (true, r)
    | _ => (false, cs)
  let neg := signAndRest.1
  let afterSign := signAndRest.2
  let ip := afterSign.takeWhile Char.isDigit
  let afterInt := afterSign.dropWhile Char.isDigit
  let fracAndRest : List Char × List Char :=
    match afterInt with
    | '.' :: r => (r.takeWhile Char.isDigit, r.dropWhile Char.isDigit)
    | _ => ([], afterInt)
  let fp := fracAndRest.1
  let afterFrac := fracAndRest.2
  if ip.isEmpty ∧ fp.isEmpty then none
  else
    let mant : ℚ := (digitsToNat (ip ++ fp) : ℚ) / ((10 : ℚ) ^ fp.length)
    let withExp : Option ℚ :=
      match afterFrac with
      | [] => some mant
      | e :: r =>
        if e = 'e' ∨ e = 'E' then
          let expSignAndRest : Bool × List Char :=
            match r with
            | '+' :: r2 => (false, r2)
            | '-' :: r2 => (true, r2)
            | _ => (false, r)
          let ed := expSignAndRest.2
          if ed.isEmpty ∨ ¬ ed.all Char.isDigit then none
          else
            let ex := digitsToNat ed
            some (if expSignAndRest.1 then mant / ((10 : ℚ) ^ ex)
                  else mant * ((10 : ℚ) ^ ex))
        else none
    match withExp with
    | none => none
    | some q => some (if neg then -q else q)

/-! ## The response envelope and `doRequest` (krakenclient.go) -/

/-- Modelled from the spec: the response envelope
`{ error: sequence of string, result: opaque }` (its Go struct declaration
lives in a repository file absent from src/; krakenclient.go is its user). -/
structure KrakenResponse (α : Type) where
  Error : List String
  Result : α

/-- Go `fmt` rendering of a `[]string` verb: elements joined by single
spaces (the surrounding brackets are added at the use site). -/
def goJoinSpace : List String → String
  | [] => ""
  | [s] => s
  | s :: rest => s ++ " " ++ goJoinSpace rest

/-- The envelope check of `doRequest` (krakenclient.go lines 73-78): a
non-empty error sequence yields the `#7` error carrying the server's error
strings; otherwise the populated result is returned. -/
def doRequestEnvelope {α : Type} (jsonData : KrakenResponse α) : Except String α :=
  if jsonData.Error.length > 0 then
    .error ("Could not execute request! #7 ([" ++ goJoinSpace jsonData.Error ++ "])")
  else .ok jsonData.Result

/-- Holds when `needle` occurs contiguously inside `hay`. -/
def containsSub (hay needle : String) : Prop :=
  ∃ pre suf, hay.toList = pre ++ needle.toList ++ suf

/-- Go `mime` token characters (printable ASCII, not a tspecial). -/
def isTokenChar (c : Char) : Bool :=
  32 < c.toNat ∧ c.toNat < 127 ∧ !("()<>@,;:\\\"/[]?=".toList.contains c)

/-- The media-type validation of Go `mime.ParseMediaType`: one token,
optionally `/` and a second token, nothing else. -/
def checkMediaType (base : String) : Except String String :=
  let cs := base.toList
  let t1 := cs.takeWhile isTokenChar
  let rest := cs.dropWhile isTokenChar
  if t1.isEmpty then .error "mime: no media type"
  else
    match rest with
    | [] => .ok base
    | '/' :: r2 =>
      let t2 := r2.takeWhile isTokenChar
      let r3 := r2.dropWhile isTokenChar
      if t2.isEmpty then .error "mime: expected token after slash"
      else if !r3.isEmpty then .error "mime: unexpected content after media subtype"
      else .ok base
    | _ => .error "mime: expected slash after first token"

/-- Go `unicode.IsSpace` on the ASCII range (header values are ASCII). -/
def isGoSpace (c : Char) : Bool :=
  c = ' ' ∨ c = '\t' ∨ c = '\n' ∨ c = '\r' ∨ c = '\x0b' ∨ c = '\x0c'

/-- Go `strings.TrimSpace` on a character list. -/
def trimSpace (cs : List Char) : List Char :=
  ((cs.dropWhile isGoSpace).reverse.dropWhile isGoSpace).reverse

/-- Go `strings.ToLower` on the ASCII range. -/
def toLowerChar (c : Char) : Char :=
  if 'A' ≤ c ∧ c ≤ 'Z' then Char.ofNat (c.toNat + 32) else c

/-- Go `mime.ParseMediaType` restricted to the media-type part (parameter
validation after `;` is outside the model): the part before `;`,
space-trimmed and lowercased, validated as `token / token`. -/
def parseMediaType (v : String) : Except String String :=
  checkMediaType (String.mk ((trimSpace (v.toList.takeWhile (fun c => c ≠ ';'))).map toLowerChar))

/-- The response-handling tail of `doRequest` (krakenclient.go lines 50-78),
from the moment body bytes and the Content-Type header are in hand:
media-type check (`#4`/`#5`), JSON unmarshalling of the envelope (`#6`,
represented by the `unmarshal` argument standing for `json.Unmarshal`), and
the envelope check (`#7`). -/
def doRequestDecode {α : Type} (contentType : String) (body : String)
    (unmarshal : String → Except String (KrakenResponse α)) : Except String α :=
  match parseMediaType contentType with
  | .error e => .error ("Could not execute request #4! (" ++ e ++ ")")
  | .ok mimeType =>
    if mimeType ≠ "application/json" then
      .error ("Could not execute request #5! (Response Content-Type is '" ++ mimeType ++
        "', but should be 'application/json'.)")
    else
      match unmarshal body with
      | .error e => .error ("Could not execute request! #6 (" ++ e ++ ")")
      | .ok jsonData => doRequestEnvelope jsonData

/-! ## The Trades shape adapter (publicapi.go lines 160-184) -/

/-- Modelled from the spec: the trade side and order-kind constants
(`BUY = "b"`, `SELL = "s"`, `MARKET = "m"`, `LIMIT = "l"`); their Go
declarations live in a repository file absent from src/. -/
def BUY : String := "b"

def SELL : String := "s"

def MARKET : String := "m"

def LIMIT : String := "l"

/-- Modelled from the spec: the decoded trade record; its Go struct
declaration lives in a repository file absent from src/, with the fields
the loop in publicapi.go populates. -/
structure TradeInfo where
  Price : String
  PriceFloat : ℚ
  Volume : String
  VolumeFloat : ℚ
  Time : Int
  Buy : Bool
  Sell : Bool
  Market : Bool
  Limit : Bool
  Miscellaneous : String
deriving DecidableEq

/-- The per-trade body of the `Trades` loop (publicapi.go lines 161-183).
The six positional type assertions panic on any other shape, modelled as
`none`; the two `ParseFloat` error values are discarded, leaving `0`. -/
def decodeTrade (trade : List GoVal) : Option TradeInfo :=
  match trade.get? 0, trade.get? 1, trade.get? 2,
      trade.get? 3, trade.get? 4, trade.get? 5 with
  | some (.str priceString), some (.str volumeString), some (.num time),
      some (.str side), some (.str kind), some (.str misc) =>
    some
      { Price := priceString
        PriceFloat := (parseFloat priceString).getD 0
        Volume := volumeString
        VolumeFloat := (parseFloat volumeString).getD 0
        Time := float64ToInt64 time
        Buy := side == BUY
        Sell := side == SELL
        Market := kind == MARKET
        Limit := kind == LIMIT
        Miscellaneous := misc }
  | _, _, _, _, _, _ => none

/-- The whole `Trades` decoding loop over the server's list of trades. -/
def TradesDecode : List GoVal → Option (List TradeInfo)
  | [] => some []
  | v :: rest =>
    match v with
    | .arr trade =>
      match decodeTrade trade, TradesDecode rest with
      | some t, some ts => some (t :: ts)
      | _, _ => none
    | _ => none

/-! ## Balance (privateapi.go lines 98-112) -/

/-- The decoding loop of `Balance`: the result map (modelled as an
association list, Go iterates the `map[string]string` in some order) has
each value parsed with `strconv.ParseFloat`; the first failure aborts the
whole call with that parse error, otherwise every asset appears with its
parsed value. -/
def Balance : List (String × String) → Except String (List (String × ℚ))
  | [] => .ok []
  | (k, v) :: rest =>
    match parseFloat v with
    | none => .error ("strconv.ParseFloat: parsing \"" ++ v ++ "\": invalid syntax")
    | some q =>
      match Balance rest with
      | .error e => .error e
      | .ok bs => .ok ((k, q) :: bs)

/-! ## queryPrivate (privateapi.go lines 350-368) -/

def APIURL : String := "https://api.kraken.com"

def APIVersion : String := "0"

/-- The fully assembled private request: URL, form values, headers. -/
structure RequestSpec where
  reqURL : String
  values : Values
  headers : List (String × String)

/-- The local phase of `queryPrivate` (privateapi.go lines 350-364): build
the path and URL, base64-decode the secret *discarding the decode error*,
set the nonce, compute the signature, and attach the `API-Key` /
`API-Sign` headers. It is total: no input, in particular no malformed
secret, makes it fail locally. -/
def queryPrivatePrepare (key secretStr method : String) (values : Values)
    (nonce : Int) : RequestSpec :=
  let urlPath := "/" ++ APIVersion ++ "/private/" ++ method
  let reqURL := APIURL ++ urlPath
  let secret := (base64DecodeString secretStr).1
  let values1 := valuesSet values "nonce" (toString nonce)
  let signature := createSignature urlPath values1 secret
  { reqURL := reqURL
    values := values1
    headers := [("API-Key", key), ("API-Sign", signature)] }

/-- Function `queryPrivate` proper: prepare the request and hand it to `doRequest`
(the `dispatch` argument stands for the transport plus response pipeline);
every error in the result comes out of `dispatch`. -/
def queryPrivateRun {α : Type} (dispatch : RequestSpec → Except String α)
    (key secretStr method : String) (values : Values) (nonce : Int) :
    Except String α :=
  dispatch (queryPrivatePrepare key secretStr method values nonce)

/-! ## The Depth shape adapter (publicapi.go lines 190-205) -/

/-- Modelled from the spec: one order-book level, decoded from the array
`[priceStr, volumeStr, timestamp]` (the Go struct and its custom
unmarshaller live in a repository file absent from src/). -/
structure OrderBookItem where
  Price : ℚ
  Amount : ℚ
  Ts : ℚ
deriving DecidableEq

/-- Modelled from the spec: decoding one order-book level; a wrong shape or
a non-numeric price/volume string is a decode error. -/
def decodeOrderBookItem (v : GoVal) : Except String OrderBookItem :=
  match v with
  | .arr [.str p, .str vol, .num t] =>
    match parseFloat p, parseFloat vol with
    | some pq, some vq => .ok ⟨pq, vq, t⟩
    | _, _ => .error "invalid order book item"
  | _ => .error "invalid order book item"

/-- Modelled from the spec: an order-book side is decoded level by level,
in the server's order, with no re-sorting, truncation or deduplication. -/
def decodeOrderBookSide : List GoVal → Except String (List OrderBookItem)
  | [] => .ok []
  | v :: rest =>
    match decodeOrderBookItem v with
    | .error e => .error e
    | .ok b =>
      match decodeOrderBookSide rest with
      | .error e => .error e
      | .ok bs => .ok (b :: bs)

/-- Modelled from the spec: the order book, both sides decoded identically. -/
structure OrderBook where
  Asks : List OrderBookItem
  Bids : List OrderBookItem
deriving DecidableEq

/-- The decoded `DepthResponse` is a map from pair name to its book. -/
abbrev DepthResponse := List (String × OrderBook)

/-- Function `Depth` (publicapi.go lines 190-205) after the response has been
decoded: look the pair up and return its book verbatim; the requested
`count` only travels in the request parameters and is never applied to the
decoded book. A missing pair is the `invalid response` error. -/
def Depth (dr : DepthResponse) (pair : String) (count : Int) : Except String OrderBook :=
  match dr.lookup pair with
  | some book => .ok book
  | none =>
    let _ := count
    .error "invalid response"

/-! ## The OHLC shape adapter and interval validation (publicapi.go) -/

/-- The decoded candle record, with the spec's eight positional fields. -/
structure OHLC where
  Time : ℚ
  Open : ℚ
  High : ℚ
  Low : ℚ
  Close : ℚ
  Vwap : ℚ
  Volume : ℚ
  Count : Int
deriving DecidableEq

/-- A numeric JSON field. -/
def asNumOpt : Option GoVal → Option ℚ
  | some (.num q) => some q
  | _ => none

/-- A string-encoded numeric JSON field, parsed with `ParseFloat`. -/
def asFloatStrOpt : Option GoVal → Option ℚ
  | some (.str s) => parseFloat s
  | _ => none

/-- Modelled from the spec: the candle decoder `NewOHLC` lives in a
repository file absent from src/ (only its caller, the loop in
publicapi.go lines 113-121, is present). Per the spec a candle is an array
of 8 positional fields — time, open, high, low, close, vwap, volume, trade
count — each string-encoded numeric except time (numeric) and count
(integer); fewer than 8 elements, a wrongly typed element, or a
non-numeric field is a hard decode error. -/
def NewOHLC (input : List GoVal) : Except String OHLC :=
  if input.length < 8 then .error "the length is too short"
  else
    match asNumOpt (input.get? 0), asFloatStrOpt (input.get? 1),
        asFloatStrOpt (input.get? 2), asFloatStrOpt (input.get? 3),
        asFloatStrOpt (input.get? 4), asFloatStrOpt (input.get? 5),
        asFloatStrOpt (input.get? 6), asNumOpt (input.get? 7) with
    | some t, some o, some hi, some lo, some c, some vw, some vol, some cnt =>
      .ok ⟨t, o, hi, lo, c, vw, vol, float64ToInt64 cnt⟩
    | _, _, _, _, _, _, _, _ => .error "invalid OHLC field"

/-- The per-position field decoder of `NewOHLC`: positions 0 (time) and 7
(trade count) are numeric JSON fields, positions 1-6 (open, high, low,
close, vwap, volume) are string-encoded numeric fields; `none` is a
non-numeric (or wrongly typed) field at that position. -/
def ohlcField (i : Nat) (v : Option GoVal) : Option ℚ :=
  if i = 0 ∨ i = 7 then asNumOpt v else asFloatStrOpt v

/-- The `OHLC` decoding loop (publicapi.go lines 113-121): each list entry
is asserted to be an array and decoded with `NewOHLC`; the first failure
aborts the whole call with that error and no partial candle list. -/
def OHLCDecodeList : List GoVal → Except String (List OHLC)
  | [] => .ok []
  | v :: rest =>
    match v with
    | .arr candle =>
      match NewOHLC candle with
      | .error e => .error e
      | .ok o =>
        match OHLCDecodeList rest with
        | .error e => .error e
        | .ok os => .ok (o :: os)
    | _ => .error "OHLC entry is not an array"

/-- The supported interval values (publicapi.go line 95). -/
def ohlcIntervals : List String :=
  ["1", "5", "15", "30", "60", "240", "1440", "10080", "21600"]

/-- The parameter-building head of `OHLC` (publicapi.go lines 83-100):
`pair` always, `since` when positive, and the interval — `""` is sent as
`"1"`, a supported value is sent as itself, anything else is the
`Unsupported value for Interval` error before any request is made. -/
def OHLCPrepare (pair interval : String) (since : Int) : Except String Values :=
  let urlValue := valuesAdd [] "pair" pair
  let urlValue :=
    if since > 0 then valuesAdd urlValue "since" (toString since) else urlValue
  if interval = "" then .ok (valuesAdd urlValue "interval" "1")
  else if ohlcIntervals.contains interval then
    .ok (valuesAdd urlValue "interval" interval)
  else .error ("Unsupported value for Interval: " ++ interval)

/-- Function `OHLC` up to the dispatch of the request (the `query` argument stands
for `queryPublic` and everything after it). -/
def OHLCRun {α : Type} (query : Values → Except String α)
    (pair interval : String) (since : Int) : Except String α :=
  match OHLCPrepare pair interval since with
  | .error e => .error e
  | .ok v => query v

/-- A server answer of fifteen identical order-book ask levels (used to
check that decoding neither truncates to a smaller requested count nor
deduplicates repeated levels). -/
def sampleLevels : List GoVal :=
  List.replicate 15 (.arr [.str "100.5", .str "0.1", .num 0])

/-! # Theorems -/

/-! ## Supporting lemmas -/

theorem strBytes_foldr_init (l : List Char) (init : List Nat) :
    l.foldr (fun c acc => utf8EncodeChar c ++ acc) init
      = l.foldr (fun c acc => utf8EncodeChar c ++ acc) [] ++ init := by
  induction l with
  | nil => rfl
  | cons c cs ih => simp [ih, List.append_assoc]

theorem strBytes_append (a b : String) :
    strBytes (a ++ b) = strBytes a ++ strBytes b := by
  unfold strBytes
  have h : (a ++ b).toList = a.toList ++ b.toList := by
    rw [String.congr_append]; rfl
  rw [h, List.foldr_append, strBytes_foldr_init]

theorem toList_append (a b : String) : (a ++ b).toList = a.toList ++ b.toList := by
  rw [String.congr_append]; rfl

theorem containsSub_goJoinSpace (errs : List String) (e : String) (he : e ∈ errs) :
    containsSub (goJoinSpace errs) e := by
  induction errs with
  | nil => cases he
  | cons s rest ih =>
    cases rest with
    | nil =>
      rcases List.mem_singleton.mp he with rfl
      exact ⟨[], [], by simp [goJoinSpace]⟩
    | cons r rs =>
      rcases List.mem_cons.mp he with rfl | hmem
      · exact ⟨[], (" " ++ goJoinSpace (r :: rs)).toList, by
          simp [goJoinSpace, toList_append]⟩
      · rcases ih hmem with ⟨pre, suf, hps⟩
        have hps2 : (goJoinSpace (r :: rs)).data = pre ++ (e.data ++ suf) := by
          simpa [List.append_assoc] using hps
        exact ⟨(s ++ " ").toList ++ pre, suf, by
          simp [goJoinSpace, toList_append, hps2]⟩

/-- Evaluation scheme for `parseFloat` on a concrete plain decimal string:
the first premise is discharged by `rfl` (symbolic reduction of the parser),
the remaining two by `rfl` / `norm_num` (rational arithmetic). -/
theorem parseFloat_eval (s : String) (ds : List Char) (k n : ℕ) (q : ℚ)
    (h1 : parseFloat s = some ((digitsToNat ds : ℚ) / (10 : ℚ) ^ k))
    (h2 : digitsToNat ds = n) (h3 : ((n : ℚ) / (10 : ℚ) ^ k) = q) :
    parseFloat s = some q := by rw [h1, h2, h3]

theorem parseFloat_4000_0 : parseFloat "4000.0" = some 4000 :=
  parseFloat_eval _ ['4', '0', '0', '0', '0'] 1 40000 _ rfl rfl (by norm_num)

theorem parseFloat_0_5 : parseFloat "0.5" = some (1 / 2) :=
  parseFloat_eval _ ['0', '5'] 1 5 _ rfl rfl (by norm_num)

theorem parseFloat_100_5000 : parseFloat "100.5000" = some (201 / 2) :=
  parseFloat_eval _ ['1', '0', '0', '5', '0', '0', '0'] 4 1005000 _ rfl rfl (by norm_num)

theorem parseFloat_0_0010 : parseFloat "0.0010" = some (1 / 1000) :=
  parseFloat_eval _ ['0', '0', '0', '1', '0'] 4 10 _ rfl rfl (by norm_num)

theorem parseFloat_100_5 : parseFloat "100.5" = some (201 / 2) :=
  parseFloat_eval _ ['1', '0', '0', '5'] 1 1005 _ rfl rfl (by norm_num)

theorem parseFloat_0_1 : parseFloat "0.1" = some (1 / 10) :=
  parseFloat_eval _ ['0', '1'] 1 1 _ rfl rfl (by norm_num)

/-! ## Claim theorems -/

/-- Claim C1: for every request path string, parameter set and secret byte string,
`createSignature` returns the base64 encoding of HMAC-SHA-512 keyed with the
secret applied to the path bytes followed by the SHA-256 digest of the nonce
string concatenated with the full URL-encoded parameter string (the encoded
string covers all parameters, the nonce key among them). -/
theorem claim_C1_signature (urlPath : String) (values : Values) (secret : List Nat) :
    createSignature urlPath values secret =
      base64Encode (getHMacSha512
        (strBytes urlPath ++
          getSha256 (strBytes (valuesGet values "nonce") ++ strBytes (valuesEncode values)))
        secret) := by
  unfold createSignature
  rw [← strBytes_append]

/-- Claim C2: after the envelope of a well-formed JSON response body has been
deserialized, `doRequest` succeeds exactly when the envelope's error
sequence is empty; on success it returns the populated result, and on a
non-empty error sequence the error message contains each of the server's
literal error strings. -/
theorem claim_C2_envelope (α : Type) :
    (∀ (r : KrakenResponse α), (∃ a, doRequestEnvelope r = .ok a) ↔ r.Error = []) ∧
    (∀ (r : KrakenResponse α), r.Error = [] → doRequestEnvelope r = .ok r.Result) ∧
    (∀ (r : KrakenResponse α) (msg : String), doRequestEnvelope r = .error msg →
      ∀ e ∈ r.Error, containsSub msg e) := by
  refine ⟨fun r => ⟨?_, ?_⟩, fun r h => ?_, fun r msg hmsg e he => ?_⟩
  · rintro ⟨a, ha⟩
    by_contra hne
    have hlen : r.Error.length > 0 := List.length_pos.mpr hne
    simp [doRequestEnvelope, hlen] at ha
  · intro h
    exact ⟨r.Result, by simp [doRequestEnvelope, h]⟩
  · simp [doRequestEnvelope, h]
  · have hlen : r.Error.length > 0 :=
      List.length_pos.mpr (fun h0 => by simp [h0] at he)
    rw [doRequestEnvelope, if_pos hlen] at hmsg
    cases hmsg
    rcases containsSub_goJoinSpace r.Error e he with ⟨pre, suf, hps⟩
    refine ⟨"Could not execute request! #7 ([".toList ++ pre, suf ++ "])".toList, ?_⟩
    have hps2 : (goJoinSpace r.Error).data = pre ++ (e.data ++ suf) := by
      simpa [List.append_assoc] using hps
    simp [toList_append, hps2]

/-- Claim C2 witness: the decoder fed the envelope
`{"error":["EOrder:Unknown order"],"result":null}` returns an error whose
message contains `EOrder:Unknown order`, and the empty-error envelope
returns its result. -/
theorem claim_C2_envelope_witness :
    (∃ msg, doRequestEnvelope ⟨["EOrder:Unknown order"], (none : Option GoVal)⟩ = .error msg ∧
      containsSub msg "EOrder:Unknown order") ∧
    doRequestEnvelope ⟨[], (some (.num 1) : Option GoVal)⟩ = .ok (some (.num 1)) :=
  ⟨⟨"Could not execute request! #7 ([EOrder:Unknown order])",
    rfl,
    (claim_C2_envelope (Option GoVal)).2.2 ⟨["EOrder:Unknown order"], none⟩ _ rfl
      "EOrder:Unknown order" (List.mem_singleton.mpr rfl)⟩,
   (claim_C2_envelope (Option GoVal)).2.1 ⟨[], some (.num 1)⟩ rfl⟩

/-- Claim C3 counterexample: the claim "for every trade decoded by Trades, exactly
one of Buy and Sell is true" fails on the code at the concrete trade array
`["1.0","1.0",0.0,"x","m",""]`: the decoder accepts any side string, and a
side that is neither `"b"` nor `"s"` decodes with Buy and Sell both false. -/
theorem claim_C3_counterexample :
    ∃ t, decodeTrade [.str "1.0", .str "1.0", .num 0, .str "x", .str "m", .str ""] = some t ∧
      t.Buy = false ∧ t.Sell = false :=
  ⟨_, rfl, rfl, rfl⟩

/-- Claim C3 (amended): for every trade decoded by Trades whose side string is
`"b"` or `"s"` and whose order-kind string is `"m"` or `"l"`, exactly one of
Buy and Sell is true and exactly one of Market and Limit is true; the
input `["4000.0","0.5",1600000000.0,"b","m","text"]` decodes to price 4000.0,
volume 0.5, buy true, sell false, market true, limit false. -/
theorem claim_C3_amended :
    (∀ (trade : List GoVal) (t : TradeInfo) (s k : String),
      trade.get? 3 = some (.str s) → trade.get? 4 = some (.str k) →
      (s = "b" ∨ s = "s") → (k = "m" ∨ k = "l") →
      decodeTrade trade = some t →
      (t.Buy ≠ t.Sell) ∧ (t.Market ≠ t.Limit)) ∧
    decodeTrade [.str "4000.0", .str "0.5", .num 1600000000, .str "b", .str "m", .str "text"] =
      some { Price := "4000.0", PriceFloat := 4000, Volume := "0.5", VolumeFloat := 1/2,
             Time := 1600000000, Buy := true, Sell := false, Market := true, Limit := false,
             Miscellaneous := "text" } := by
  constructor
  · intro trade t s k h3 h4 hs hk hdec
    unfold decodeTrade at hdec
    split at hdec
    · rename_i priceString volumeString time side kind misc
        heq0 heq1 heq2 heq3 heq4 heq5
      rw [heq3] at h3
      rw [heq4] at h4
      have hside : side = s := by simpa using h3
      have hkind : kind = k := by simpa using h4
      subst hside hkind
      have ht := (Option.some.injEq _ _).mp hdec
      subst ht
      rcases hs with rfl | rfl <;> rcases hk with rfl | rfl <;> simp [BUY, SELL, MARKET, LIMIT]
    · exact absurd hdec (by simp)
  · have hstep : decodeTrade
        [.str "4000.0", .str "0.5", .num 1600000000, .str "b", .str "m", .str "text"] =
        some { Price := "4000.0", PriceFloat := (parseFloat "4000.0").getD 0,
               Volume := "0.5", VolumeFloat := (parseFloat "0.5").getD 0,
               Time := float64ToInt64 1600000000,
               Buy := "b" == BUY, Sell := "b" == SELL,
               Market := "m" == MARKET, Limit := "m" == LIMIT,
               Miscellaneous := "text" } := rfl
    rw [hstep, parseFloat_4000_0, parseFloat_0_5]
    rfl

/-- Claim C3 witness: the amended exclusivity applied to the concrete trade
`["4000.0","0.5",1600000000.0,"b","m","text"]`. -/
theorem claim_C3_witness :
    ∃ t, decodeTrade
        [.str "4000.0", .str "0.5", .num 1600000000, .str "b", .str "m", .str "text"] =
        some t ∧ t.Buy ≠ t.Sell ∧ t.Market ≠ t.Limit :=
  ⟨_, rfl,
    claim_C3_amended.1
      [.str "4000.0", .str "0.5", .num 1600000000, .str "b", .str "m", .str "text"]
      _ "b" "m" rfl rfl (Or.inl rfl) (Or.inl rfl) rfl⟩

/-- Claim C4: `doRequest` parses the response body as an envelope only when the
parsed Content-Type media type is exactly `application/json`; for any other
Content-Type it returns an error whose value does not depend on the body
parser at all. -/
theorem claim_C4_content_type (α : Type) :
    (∀ (ct body : String) (u1 u2 : String → Except String (KrakenResponse α)),
      parseMediaType ct ≠ .ok "application/json" →
      (∃ e, doRequestDecode ct body u1 = .error e) ∧
        doRequestDecode ct body u1 = doRequestDecode ct body u2) ∧
    (∀ (ct body : String) (u : String → Except String (KrakenResponse α)),
      parseMediaType ct = .ok "application/json" →
      doRequestDecode ct body u =
        match u body with
        | .error e => .error ("Could not execute request! #6 (" ++ e ++ ")")
        | .ok jsonData => doRequestEnvelope jsonData) := by
  constructor
  · intro ct body u1 u2 hne
    unfold doRequestDecode
    cases hpm : parseMediaType ct with
    | error e => exact ⟨⟨_, rfl⟩, rfl⟩
    | ok mt =>
      have hmt : mt ≠ "application/json" := fun h => hne (h ▸ hpm)
      simp only [if_pos hmt, ne_eq]
      exact ⟨⟨_, rfl⟩, trivial⟩
  · intro ct body u h
    unfold doRequestDecode
    rw [h]
    simp

/-- Claim C4 witness: a `text/html` response is rejected without the body parser
ever being consulted. -/
theorem claim_C4_witness :
    (∃ e, doRequestDecode "text/html" "<html></html>"
        (fun _ => Except.ok (⟨[], (none : Option GoVal)⟩ : KrakenResponse (Option GoVal))) =
        .error e) ∧
    doRequestDecode "text/html" "<html></html>"
        (fun _ => Except.ok (⟨[], (none : Option GoVal)⟩ : KrakenResponse (Option GoVal))) =
      doRequestDecode "text/html" "<html></html>"
        (fun _ => Except.error "any other parser outcome") :=
  (claim_C4_content_type (Option GoVal)).1 "text/html" "<html></html>" _ _
    (by intro h; exact absurd (by rw [show parseMediaType "text/html" = .ok "text/html" from rfl] at h; exact h) (by simp))

/-- Claim C5: `Balance` decodes a flat map from asset code to string-encoded
float; when every value parses, the result holds every asset with its
parsed value (in particular `{"ZUSD":"100.5000","XXBT":"0.0010"}` yields
`ZUSD = 100.5` and `XXBT = 0.001`), and when any single value fails to
parse, the whole call returns an error and no partial balance record. -/
theorem claim_C5_balance :
    (∀ (entries : List (String × String)),
      (∀ kv ∈ entries, (parseFloat kv.2).isSome = true) →
      Balance entries = .ok (entries.map (fun kv => (kv.1, (parseFloat kv.2).getD 0)))) ∧
    Balance [("ZUSD", "100.5000"), ("XXBT", "0.0010")] =
      .ok [("ZUSD", 201 / 2), ("XXBT", 1 / 1000)] ∧
    (∀ (entries : List (String × String)) (k v : String),
      (k, v) ∈ entries → parseFloat v = none → ∃ e, Balance entries = .error e) := by
  have hall : ∀ (entries : List (String × String)),
      (∀ kv ∈ entries, (parseFloat kv.2).isSome = true) →
      Balance entries = .ok (entries.map (fun kv => (kv.1, (parseFloat kv.2).getD 0))) := by
    intro entries
    induction entries with
    | nil => intro _; rfl
    | cons kv rest ih =>
      intro h
      obtain ⟨q, hq⟩ := Option.isSome_iff_exists.mp (h kv (List.mem_cons_self kv rest))
      have hrest := ih (fun x hx => h x (List.mem_cons_of_mem kv hx))
      obtain ⟨k0, v0⟩ := kv
      simp only [Balance, hq, hrest, List.map_cons, Option.getD_some]
  refine ⟨hall, ?_, ?_⟩
  · rw [hall [("ZUSD", "100.5000"), ("XXBT", "0.0010")]
      (by intro kv hkv
          rcases List.mem_cons.mp hkv with rfl | hkv2
          · rw [show parseFloat "100.5000" = some (201 / 2) from parseFloat_100_5000]; rfl
          · rcases List.mem_singleton.mp hkv2 with rfl
            rw [show parseFloat "0.0010" = some (1 / 1000) from parseFloat_0_0010]; rfl)]
    simp [parseFloat_100_5000, parseFloat_0_0010]
  · intro entries k v hmem hnone
    induction entries with
    | nil => cases hmem
    | cons kv rest ih =>
      rcases List.mem_cons.mp hmem with heq | hmem2
      · obtain ⟨k0, v0⟩ := kv
        obtain ⟨rfl, rfl⟩ := Prod.mk.injEq .. |>.mp heq.symm
        exact ⟨"strconv.ParseFloat: parsing \"" ++ v0 ++ "\": invalid syntax",
          by simp only [Balance, hnone]⟩
      · obtain ⟨k0, v0⟩ := kv
        cases hv0 : parseFloat v0 with
        | none =>
          exact ⟨"strconv.ParseFloat: parsing \"" ++ v0 ++ "\": invalid syntax",
            by simp only [Balance, hv0]⟩
        | some q =>
          obtain ⟨e, he⟩ := ih hmem2
          exact ⟨e, by simp only [Balance, hv0, he]⟩

/-- Claim C5 witness: the concrete all-parse and one-failure cases. -/
theorem claim_C5_witness :
    Balance [("ZUSD", "100.5000"), ("XXBT", "0.0010")] =
      .ok [("ZUSD", 201 / 2), ("XXBT", 1 / 1000)] ∧
    ∃ e, Balance [("ZUSD", "not-a-number")] = .error e :=
  ⟨claim_C5_balance.2.1,
   claim_C5_balance.2.2 [("ZUSD", "not-a-number")] "ZUSD" "not-a-number"
     (List.mem_singleton.mpr rfl) rfl⟩

/-- Claim C6: a trade whose volume string (position 1) does not parse as a float
still decodes successfully, with the numeric volume field zero and the raw
volume string kept; a price parse failure at position 0 likewise produces no
error, only a zero numeric price. -/
theorem claim_C6_parse_tolerance :
    (∀ (ps vs : String) (time : ℚ) (side kind misc : String),
      parseFloat vs = none →
      ∃ t, decodeTrade [.str ps, .str vs, .num time, .str side, .str kind, .str misc] =
          some t ∧ t.VolumeFloat = 0 ∧ t.Volume = vs) ∧
    (∀ (ps vs : String) (time : ℚ) (side kind misc : String),
      parseFloat ps = none →
      ∃ t, decodeTrade [.str ps, .str vs, .num time, .str side, .str kind, .str misc] =
          some t ∧ t.PriceFloat = 0 ∧ t.Price = ps) := by
  constructor
  · intro ps vs time side kind misc h
    exact ⟨_, rfl, by simp [h], rfl⟩
  · intro ps vs time side kind misc h
    exact ⟨_, rfl, by simp [h], rfl⟩

/-- Claim C6 witness: the volume string `"abc"` does not parse, yet the trade
decodes with volume 0 and the raw string kept; same for the price. -/
theorem claim_C6_witness :
    (∃ t, decodeTrade [.str "1.0", .str "abc", .num 0, .str "b", .str "m", .str ""] =
        some t ∧ t.VolumeFloat = 0 ∧ t.Volume = "abc") ∧
    (∃ t, decodeTrade [.str "abc", .str "1.0", .num 0, .str "b", .str "m", .str ""] =
        some t ∧ t.PriceFloat = 0 ∧ t.Price = "abc") :=
  ⟨claim_C6_parse_tolerance.1 "1.0" "abc" 0 "b" "m" "" rfl,
   claim_C6_parse_tolerance.2 "abc" "1.0" 0 "b" "m" "" rfl⟩

/-- Claim C7: a secret that is not valid base64 never causes a local error in
`queryPrivate`: the decode error is discarded, the signature is computed
from whatever bytes were decoded, and the request is handed to the
dispatcher unconditionally (any rejection comes from the remote server). -/
theorem claim_C7_secret_tolerated (secretStr : String)
    (_hbad : (base64DecodeString secretStr).2.isSome = true)
    (α : Type) (dispatch : RequestSpec → Except String α)
    (key method : String) (values : Values) (nonce : Int) :
    queryPrivateRun dispatch key secretStr method values nonce =
      dispatch (queryPrivatePrepare key secretStr method values nonce) ∧
    (queryPrivatePrepare key secretStr method values nonce).headers =
      [("API-Key", key),
       ("API-Sign", createSignature ("/" ++ APIVersion ++ "/private/" ++ method)
         (valuesSet values "nonce" (toString nonce))
         (base64DecodeString secretStr).1)] := by
  exact ⟨rfl, rfl⟩

/-- Claim C7 witness: the secret `"!!!!"` is not valid base64, yet the request is
prepared and dispatched, and the dispatcher's answer is returned as is. -/
theorem claim_C7_witness :
    queryPrivateRun (fun _ => Except.ok (0 : ℚ)) "key" "!!!!" "Balance" [] 1 =
      Except.ok 0 ∧
    (base64DecodeString "!!!!").2.isSome = true :=
  ⟨((claim_C7_secret_tolerated "!!!!" rfl ℚ (fun _ => Except.ok 0) "key" "Balance" [] 1).1).trans
      rfl,
   rfl⟩

/-- Claim C8: the decoded order book carries exactly the levels the server sent,
in the server's order — decoding preserves length and per-position content
(no truncation to the requested count, no re-sorting, no deduplication) —
and `Depth` returns the looked-up book verbatim for any requested count. -/
theorem claim_C8_depth_verbatim :
    (∀ (js : List GoVal) (bs : List OrderBookItem),
      decodeOrderBookSide js = .ok bs →
      bs.length = js.length ∧ js.map decodeOrderBookItem = bs.map Except.ok) ∧
    (∀ (dr : DepthResponse) (pair : String) (count : Int) (book : OrderBook),
      dr.lookup pair = some book → Depth dr pair count = .ok book) := by
  constructor
  · intro js
    induction js with
    | nil =>
      intro bs h
      obtain rfl : ([] : List OrderBookItem) = bs := by
        simpa [decodeOrderBookSide] using h
      exact ⟨rfl, rfl⟩
    | cons v rest ih =>
      intro bs h
      unfold decodeOrderBookSide at h
      cases hv : decodeOrderBookItem v with
      | error e => rw [hv] at h; cases h
      | ok b =>
        rw [hv] at h
        cases hrest : decodeOrderBookSide rest with
        | error e => rw [hrest] at h; cases h
        | ok bs2 =>
          rw [hrest] at h
          obtain rfl : b :: bs2 = bs := by simpa using h
          obtain ⟨hlen, hmap⟩ := ih bs2 hrest
          exact ⟨by simp [hlen], by simp [hv, hmap]⟩
  · intro dr pair count book h
    unfold Depth
    rw [h]

/-- Claim C8 witness: fifteen identical server ask levels decode to fifteen
levels, and `Depth` with requested count 10 returns all fifteen verbatim. -/
theorem claim_C8_witness :
    ((List.replicate 15 (⟨201 / 2, 1 / 10, 0⟩ : OrderBookItem)).length =
        sampleLevels.length ∧
      sampleLevels.map decodeOrderBookItem =
        (List.replicate 15 (⟨201 / 2, 1 / 10, 0⟩ : OrderBookItem)).map Except.ok) ∧
    Depth [("XETHZEUR", ⟨List.replicate 15 ⟨201 / 2, 1 / 10, 0⟩, []⟩)] "XETHZEUR" 10 =
      .ok ⟨List.replicate 15 ⟨201 / 2, 1 / 10, 0⟩, []⟩ := by
  have hitem : decodeOrderBookItem (.arr [.str "100.5", .str "0.1", .num 0]) =
      .ok ⟨201 / 2, 1 / 10, 0⟩ := by
    simp only [decodeOrderBookItem, parseFloat_100_5, parseFloat_0_1]
  have hside : decodeOrderBookSide sampleLevels =
      .ok (List.replicate 15 (⟨201 / 2, 1 / 10, 0⟩ : OrderBookItem)) := by
    have hrep : ∀ n, decodeOrderBookSide
        (List.replicate n (.arr [.str "100.5", .str "0.1", .num 0])) =
        .ok (List.replicate n (⟨201 / 2, 1 / 10, 0⟩ : OrderBookItem)) := by
      intro n
      induction n with
      | zero => rfl
      | succ m ihm =>
        simp only [List.replicate_succ, decodeOrderBookSide, hitem, ihm]
    exact hrep 15
  exact ⟨claim_C8_depth_verbatim.1 sampleLevels _ hside,
    claim_C8_depth_verbatim.2 _ "XETHZEUR" 10 _ rfl⟩

/-- A successful `NewOHLC` requires every one of the eight positional
fields to have decoded as a number: positions 0 and 7 as numeric JSON
values, positions 1-6 as string-encoded numerics that parse. -/
theorem NewOHLC_ok_fields (input : List GoVal) (o : OHLC)
    (h : NewOHLC input = .ok o) :
    (asNumOpt (input.get? 0)).isSome = true ∧
    (asFloatStrOpt (input.get? 1)).isSome = true ∧
    (asFloatStrOpt (input.get? 2)).isSome = true ∧
    (asFloatStrOpt (input.get? 3)).isSome = true ∧
    (asFloatStrOpt (input.get? 4)).isSome = true ∧
    (asFloatStrOpt (input.get? 5)).isSome = true ∧
    (asFloatStrOpt (input.get? 6)).isSome = true ∧
    (asNumOpt (input.get? 7)).isSome = true := by
  unfold NewOHLC at h
  split at h
  · cases h
  · split at h
    · rename_i heq0 heq1 heq2 heq3 heq4 heq5 heq6 heq7
      refine ⟨?_, ?_, ?_, ?_, ?_, ?_, ?_, ?_⟩ <;>
        first
        | (rw [heq0]; rfl)
        | (rw [heq1]; rfl)
        | (rw [heq2]; rfl)
        | (rw [heq3]; rfl)
        | (rw [heq4]; rfl)
        | (rw [heq5]; rfl)
        | (rw [heq6]; rfl)
        | (rw [heq7]; rfl)
    · cases h

/-- Claim C9: a candle array with fewer than 8 elements, or with a
non-numeric field at any of its 8 positions (a time or count that is not a
JSON number, or an open/high/low/close/vwap/volume that is not a
string parsing as a number), is a hard `NewOHLC` decode error, and one
failing candle anywhere in the list makes the whole OHLC decode return an
error — never a truncated or skipped candle list. -/
theorem claim_C9_ohlc_hard_error :
    (∀ (input : List GoVal), input.length < 8 → ∃ e, NewOHLC input = .error e) ∧
    (∀ (input : List GoVal) (i : ℕ), i < 8 →
      ohlcField i (input.get? i) = none →
      ∃ e, NewOHLC input = .error e) ∧
    (∀ (candles : List GoVal) (c : List GoVal),
      GoVal.arr c ∈ candles → (∀ o, NewOHLC c ≠ .ok o) →
      ∃ e, OHLCDecodeList candles = .error e) := by
  refine ⟨?_, ?_, ?_⟩
  · intro input h
    exact ⟨"the length is too short", by simp only [NewOHLC, if_pos h]⟩
  · intro input i hi hnone
    cases hN : NewOHLC input with
    | error e => exact ⟨e, rfl⟩
    | ok o =>
      exfalso
      obtain ⟨h0, h1, h2, h3, h4, h5, h6, h7⟩ := NewOHLC_ok_fields input o hN
      interval_cases i <;> simp_all [ohlcField]
  · intro candles
    induction candles with
    | nil => intro c hc; cases hc
    | cons v rest ih =>
      intro c hc hbad
      rcases List.mem_cons.mp hc with heq | hmem
      · subst heq
        cases hN : NewOHLC c with
        | error e => exact ⟨e, by simp only [OHLCDecodeList, hN]⟩
        | ok o => exact absurd hN (hbad o)
      · cases v with
        | arr candle =>
          cases hN : NewOHLC candle with
          | error e2 => exact ⟨e2, by simp only [OHLCDecodeList, hN]⟩
          | ok o =>
            obtain ⟨e, he⟩ := ih c hmem hbad
            exact ⟨e, by simp only [OHLCDecodeList, hN, he]⟩
        | str s => exact ⟨"OHLC entry is not an array", rfl⟩
        | num q => exact ⟨"OHLC entry is not an array", rfl⟩
        | nullv => exact ⟨"OHLC entry is not an array", rfl⟩

/-- Claim C9 witness: a 7-element candle array is rejected; candles with a
non-numeric open field (position 1), a non-numeric time field (position 0)
and a non-numeric count field (position 7) are each rejected; and a list
containing a bad candle makes the whole decode fail. -/
theorem claim_C9_witness :
    (∃ e, NewOHLC [.num 1, .str "1.0", .str "1.0", .str "1.0", .str "1.0",
        .str "1.0", .str "1.0"] = .error e) ∧
    (∃ e, NewOHLC [.num 1, .str "x", .str "1.0", .str "1.0", .str "1.0",
        .str "1.0", .str "1.0", .num 2] = .error e) ∧
    (∃ e, NewOHLC [.str "t", .str "1.0", .str "1.0", .str "1.0", .str "1.0",
        .str "1.0", .str "1.0", .num 2] = .error e) ∧
    (∃ e, NewOHLC [.num 1, .str "1.0", .str "1.0", .str "1.0", .str "1.0",
        .str "1.0", .str "1.0", .str "c"] = .error e) ∧
    (∃ e, OHLCDecodeList [.arr [.num 1]] = .error e) := by
  refine ⟨claim_C9_ohlc_hard_error.1 _ (by simp),
    claim_C9_ohlc_hard_error.2.1 _ 1 (by norm_num) rfl,
    claim_C9_ohlc_hard_error.2.1 _ 0 (by norm_num) rfl,
    claim_C9_ohlc_hard_error.2.1 _ 7 (by norm_num) rfl,
    claim_C9_ohlc_hard_error.2.2 _ [.num 1] (List.mem_singleton.mpr rfl) ?_⟩
  intro o h
  rw [show NewOHLC [.num 1] = .error "the length is too short" from rfl] at h
  cases h

/-- Claim C10: an interval string that is neither empty nor one of the supported
values makes `OHLC` return the `Unsupported value for Interval` error
without issuing any request (the outcome is the same for every possible
query function), while an empty interval string is sent as interval `"1"`. -/
theorem claim_C10_interval_validation (α : Type) :
    (∀ (query : Values → Except String α) (pair interval : String) (since : Int),
      interval ≠ "" → interval ∉ ohlcIntervals →
      OHLCRun query pair interval since =
        .error ("Unsupported value for Interval: " ++ interval)) ∧
    (∀ (query : Values → Except String α) (pair : String) (since : Int),
      ∃ vals, OHLCPrepare pair "" since = .ok vals ∧
        valuesGet vals "interval" = "1" ∧
        OHLCRun query pair "" since = query vals) := by
  constructor
  · intro query pair interval since hne hnotin
    unfold OHLCRun OHLCPrepare
    rw [if_neg hne, if_neg (by simpa using hnotin)]
  · intro query pair since
    by_cases hs : since > 0
    · refine ⟨valuesAdd (valuesAdd (valuesAdd [] "pair" pair) "since" (toString since))
        "interval" "1", ?_, ?_, ?_⟩
      · simp only [OHLCPrepare, if_pos hs]; rfl
      · rfl
      · simp only [OHLCRun, OHLCPrepare, if_pos hs]; rfl
    · refine ⟨valuesAdd (valuesAdd [] "pair" pair) "interval" "1", ?_, ?_, ?_⟩
      · simp only [OHLCPrepare, if_neg hs]; rfl
      · rfl
      · simp only [OHLCRun, OHLCPrepare, if_neg hs]; rfl

/-- Claim C10 witness: interval `"7"` is rejected with no request issued, and the
empty interval is sent as `"1"`. -/
theorem claim_C10_witness :
    OHLCRun (fun _ => Except.ok (0 : ℚ)) "XXBTZEUR" "7" 0 =
      .error ("Unsupported value for Interval: " ++ "7") ∧
    ∃ vals, OHLCPrepare "XXBTZEUR" "" 0 = .ok vals ∧
      valuesGet vals "interval" = "1" ∧
      OHLCRun (fun _ => Except.ok (0 : ℚ)) "XXBTZEUR" "" 0 = Except.ok 0 := by
  constructor
  · exact (claim_C10_interval_validation ℚ).1 (fun _ => Except.ok 0) "XXBTZEUR" "7" 0
      (by simp) (by simp [ohlcIntervals])
  · obtain ⟨vals, h1, h2, h3⟩ :=
      (claim_C10_interval_validation ℚ).2 (fun _ => Except.ok 0) "XXBTZEUR" 0
    exact ⟨vals, h1, h2, h3⟩

end KrakenApi
